import Mathlib

/-!
Verification of the Dolphin IOS HLE resource-management layer:
the ES content-descriptor table (OpenContent/ReadContent/SeekContent/CloseContent
and their IOCtlV handlers, Core/IOS/ES/ES.cpp) and the USB host device registry
(AddDevice/GetDeviceById/DetectRemovedDevices/UpdateDevices/DispatchHooks,
Core/IOS/USB/Host.cpp).  External collaborators (the filesystem transport, the
title-metadata reader, guest memory, the UID map and the host-hardware
enumerator) are modelled as oracles; every transport call an operation makes is
recorded in an explicit call log so that "no transport operation is performed"
is a provable statement.
-/

namespace Dolphin

/-- Result codes of the ES/IPC error taxonomy, one constructor per named code
used by the content-table operations.  `ok v` is a non-negative reply carrying
a value (a handle, byte count or file offset); `fsError e` is a transport error
translated by `FS::ConvertResult`. -/
inductive ESResult where
  | ok (value : Nat)
  | ipcSuccess
  | esEinval
  | esEacces
  | ipcEinval
  | fsEfdexhausted
  | fsEnoent
  | fsError (code : Nat)
  deriving DecidableEq, Repr

/-- `ES::Content`: the content descriptor resolved from the title metadata. -/
structure Content where
  cid : Nat
  index : Nat
  size : Nat
  deriving DecidableEq, Repr

instance : Inhabited Content := ⟨⟨0, 0, 0⟩⟩

/-- One entry of `m_content_table` (`OpenedContent`): open flag, backing
filesystem descriptor, content descriptor, title id and owning uid. -/
structure OpenedContent where
  m_opened : Bool
  m_fd : Nat
  m_content : Content
  m_title_id : Nat
  m_uid : Nat
  deriving DecidableEq, Repr

/-- The value-initialized entry (`entry = {}` in C++): `m_opened = false` and
all other fields default. -/
def emptyEntry : OpenedContent := ⟨false, 0, ⟨0, 0, 0⟩, 0, 0⟩

instance : Inhabited OpenedContent := ⟨emptyEntry⟩

/-- A transport (filesystem) call made by a content-table operation.  The call
log of an operation is the list of these it performs. -/
inductive FSCall where
  | openFile (title_id : Nat) (content : Content)
  | readBytes (fd : Nat) (size : Nat)
  | seekFile (fd : Nat) (offset : Nat) (mode : Nat)
  | close (fd : Nat)
  deriving DecidableEq, Repr

/-- Modelled from the spec: the transport collaborator (`m_ios.GetFS()`); open,
read and seek return a byte count / descriptor / offset or a transport-specific
error code that `FS::ConvertResult` translates into the taxonomy. -/
structure FSOracle where
  openFile : Nat → Content → Except Nat Nat
  readBytes : Nat → Nat → Except Nat Nat
  seekFile : Nat → Nat → Nat → Except Nat Nat

/-- Modelled from the spec: the title-metadata reader collaborator
(`ES::TMDReader`), exposing the title id and content-by-index lookup. -/
structure TMDReader where
  titleId : Nat
  getContent : Nat → Option Content

/-- The entry of the content table at index `cfd` (only consulted after the
range check, so the default is never observable). -/
def entryAt (table : List OpenedContent) (cfd : Nat) : OpenedContent :=
  table.getD cfd emptyEntry

/-- The slot-scanning loop of `ESDevice::OpenContent(tmd, content_index, uid)`:
skip opened entries; at the first non-opened entry open the backing file —
returning the translated transport error if that fails — then populate the
entry and return its index; `FS_EFDEXHAUSTED` if every entry is opened.
`i` is the absolute index of the head of the remaining list. -/
def openContentLoop (fs : FSOracle) (title_id : Nat) (content : Content) (uid : Nat) :
    Nat → List OpenedContent → ESResult × List OpenedContent × List FSCall
  | _, [] => (.fsEfdexhausted, [], [])
  | i, entry :: rest =>
    if entry.m_opened then
      let r := openContentLoop fs title_id content uid (i + 1) rest
      (r.1, entry :: r.2.1, r.2.2)
    else
      match fs.openFile title_id content with
      | .error e => (.fsError e, entry :: rest, [.openFile title_id content])
      | .ok fd =>
        (.ok i, ⟨true, fd, content, title_id, uid⟩ :: rest, [.openFile title_id content])

/-- `ESDevice::OpenContent(tmd, content_index, uid)`: resolve the content
descriptor (ES_EINVAL if the index is unknown), then scan the table. -/
def openContent (fs : FSOracle) (tmd : TMDReader) (table : List OpenedContent)
    (content_index uid : Nat) : ESResult × List OpenedContent × List FSCall :=
  match tmd.getContent content_index with
  | none => (.esEinval, table, [])
  | some content => openContentLoop fs tmd.titleId content uid 0 table

/-- `ESDevice::ReadContent(cfd, buffer, size, uid)`: range check, owner check,
open-flag check, then the transport read. -/
def readContent (fs : FSOracle) (table : List OpenedContent) (cfd size uid : Nat) :
    ESResult × List FSCall :=
  if table.length ≤ cfd then (.esEinval, [])
  else
    let entry := entryAt table cfd
    if entry.m_uid ≠ uid then (.esEacces, [])
    else if entry.m_opened = false then (.ipcEinval, [])
    else
      match fs.readBytes entry.m_fd size with
      | .ok n => (.ok n, [.readBytes entry.m_fd size])
      | .error e => (.fsError e, [.readBytes entry.m_fd size])

/-- `ESDevice::SeekContent(cfd, offset, mode, uid)`: the same three guards,
then the transport seek. -/
def seekContent (fs : FSOracle) (table : List OpenedContent)
    (cfd offset mode uid : Nat) : ESResult × List FSCall :=
  if table.length ≤ cfd then (.esEinval, [])
  else
    let entry := entryAt table cfd
    if entry.m_uid ≠ uid then (.esEacces, [])
    else if entry.m_opened = false then (.ipcEinval, [])
    else
      match fs.seekFile entry.m_fd offset mode with
      | .ok n => (.ok n, [.seekFile entry.m_fd offset mode])
      | .error e => (.fsError e, [.seekFile entry.m_fd offset mode])

/-- `ESDevice::CloseContent(cfd, uid)`: the same three guards, then the
transport close and a full reset of the entry to the empty state. -/
def closeContent (table : List OpenedContent) (cfd uid : Nat) :
    ESResult × List OpenedContent × List FSCall :=
  if table.length ≤ cfd then (.esEinval, table, [])
  else
    let entry := entryAt table cfd
    if entry.m_uid ≠ uid then (.esEacces, table, [])
    else if entry.m_opened = false then (.ipcEinval, table, [])
    else (.ipcSuccess, table.set cfd emptyEntry, [.close entry.m_fd])

/-- One buffer descriptor of a vectored request. -/
structure IOVector where
  address : Nat
  size : Nat
  deriving DecidableEq, Repr

instance : Inhabited IOVector := ⟨⟨0, 0⟩⟩

/-- A vectored `IOCtlV` request: typed input and output buffer descriptors. -/
structure IOCtlVRequest where
  in_vectors : List IOVector
  io_vectors : List IOVector
  deriving DecidableEq, Repr

/-- Modelled from the spec: `IOCtlVRequest::HasNumberOfValidVectors` checks the
request against the operation's fixed vector counts. -/
def IOCtlVRequest.hasNumberOfValidVectors (r : IOCtlVRequest) (in_count io_count : Nat) :
    Bool :=
  r.in_vectors.length == in_count && r.io_vectors.length == io_count

/-- Modelled from the spec: the guest-memory accessor collaborator
(`Memory::Read_U32` / `Memory::Read_U64`). -/
structure GuestMemory where
  read_u32 : Nat → Nat
  read_u64 : Nat → Nat

/-- Modelled from the spec: `sizeof(ES::TicketView)`, the exact byte size the
Open request's second input vector must have. -/
def ticketViewSize : Nat := 216

/-- `m_title_context`: whether a title context is active, and its metadata. -/
structure TitleContext where
  active : Bool
  tmd : TMDReader

/-- The IOCtlV handler `ESDevice::OpenContent(uid, request)`: shape check
(3 inputs sized u64 / ticket view / u32, 0 outputs), installed-TMD lookup
(FS_ENOENT when missing — `findInstalledTMD` models the storage-format
collaborator `FindInstalledTMD`), then the table Open. -/
def openContentIoctlv (fs : FSOracle) (mem : GuestMemory)
    (findInstalledTMD : Nat → Option TMDReader) (table : List OpenedContent)
    (uid : Nat) (request : IOCtlVRequest) : ESResult × List OpenedContent × List FSCall :=
  if !request.hasNumberOfValidVectors 3 0
      || (request.in_vectors.getD 0 default).size != 8
      || (request.in_vectors.getD 1 default).size != ticketViewSize
      || (request.in_vectors.getD 2 default).size != 4 then
    (.esEinval, table, [])
  else
    let title_id := mem.read_u64 (request.in_vectors.getD 0 default).address
    let content_index := mem.read_u32 (request.in_vectors.getD 2 default).address
    match findInstalledTMD title_id with
    | none => (.fsEnoent, table, [])
    | some tmd => openContent fs tmd table content_index uid

/-- The IOCtlV handler `ESDevice::OpenActiveTitleContent(caller_uid, request)`:
shape check (1 input sized u32, 0 outputs), active-context check (ES_EINVAL
when inactive), UID-map lookup (`uidForTitle` models the collaborator
`ES::UIDSys::GetOrInsertUIDForTitle`, a stable per-title identity assignment),
the privilege check, then the table Open on the active title's metadata. -/
def openActiveTitleContent (fs : FSOracle) (mem : GuestMemory)
    (uidForTitle : Nat → Nat) (tc : TitleContext) (table : List OpenedContent)
    (caller_uid : Nat) (request : IOCtlVRequest) :
    ESResult × List OpenedContent × List FSCall :=
  if !request.hasNumberOfValidVectors 1 0
      || (request.in_vectors.getD 0 default).size != 4 then
    (.esEinval, table, [])
  else
    let content_index := mem.read_u32 (request.in_vectors.getD 0 default).address
    if tc.active = false then (.esEinval, table, [])
    else
      let uid := uidForTitle tc.tmd.titleId
      if caller_uid ≠ 0 ∧ caller_uid ≠ uid then (.esEacces, table, [])
      else openContent fs tc.tmd table content_index caller_uid

/-- The IOCtlV handler `ESDevice::ReadContent(uid, request)`: shape check
(1 input sized u32, 1 output of caller-specified size), then the table Read. -/
def readContentIoctlv (fs : FSOracle) (mem : GuestMemory)
    (table : List OpenedContent) (uid : Nat) (request : IOCtlVRequest) :
    ESResult × List FSCall :=
  if !request.hasNumberOfValidVectors 1 1
      || (request.in_vectors.getD 0 default).size != 4 then
    (.esEinval, [])
  else
    let cfd := mem.read_u32 (request.in_vectors.getD 0 default).address
    let size := (request.io_vectors.getD 0 default).size
    readContent fs table cfd size uid

/-- The IOCtlV handler `ESDevice::CloseContent(uid, request)`: shape check
(1 input sized u32, 0 outputs), then the table Close. -/
def closeContentIoctlv (mem : GuestMemory) (table : List OpenedContent)
    (uid : Nat) (request : IOCtlVRequest) : ESResult × List OpenedContent × List FSCall :=
  if !request.hasNumberOfValidVectors 1 0
      || (request.in_vectors.getD 0 default).size != 4 then
    (.esEinval, table, [])
  else
    closeContent table (mem.read_u32 (request.in_vectors.getD 0 default).address) uid

/-- The IOCtlV handler `ESDevice::SeekContent(uid, request)`: it checks only
the vector counts (3 inputs, 0 outputs) and then decodes the three u32
arguments and performs the guarded seek. -/
def seekContentIoctlv (fs : FSOracle) (mem : GuestMemory)
    (table : List OpenedContent) (uid : Nat) (request : IOCtlVRequest) :
    ESResult × List FSCall :=
  if !request.hasNumberOfValidVectors 3 0 then (.esEinval, [])
  else
    let cfd := mem.read_u32 (request.in_vectors.getD 0 default).address
    let offset := mem.read_u32 (request.in_vectors.getD 1 default).address
    let mode := mem.read_u32 (request.in_vectors.getD 2 default).address
    seekContent fs table cfd offset mode uid

/-- A passthrough USB device: stable identity plus descriptor data. -/
structure USBDevice where
  devid : Nat
  vid : Nat
  pid : Nat
  deriving DecidableEq, Repr

/-- The kind of a device-change event (`USBHost::ChangeEvent`). -/
inductive ChangeEvent where
  | inserted
  | removed
  deriving DecidableEq, Repr

/-- Lookup by key in the registry's id-ordered map (`m_devices.find(id)`). -/
def registryFind (id : Nat) : List USBDevice → Option USBDevice
  | [] => none
  | d :: rest => if d.devid = id then some d else registryFind id rest

/-- Insertion into the registry's id-ordered map (`m_devices[id] = device`,
performed only when the id is absent). -/
def registryInsert (d : USBDevice) : List USBDevice → List USBDevice
  | [] => [d]
  | e :: rest => if d.devid < e.devid then d :: e :: rest else e :: registryInsert d rest

/-- `USBHost::AddDevice`: insert if the device's id is absent; return whether
it was newly inserted. -/
def addDevice (reg : List USBDevice) (d : USBDevice) : Bool × List USBDevice :=
  match registryFind d.devid reg with
  | some _ => (false, reg)
  | none => (true, registryInsert d reg)

/-- `USBHost::GetDeviceById`. -/
def getDeviceById (reg : List USBDevice) (id : Nat) : Option USBDevice :=
  registryFind id reg

/-- `USBHost::DetectRemovedDevices`: remove every entry whose id is absent
from the plugged set, appending a `Removed` event for each in iteration
order.  The hooks container is modelled from the spec as an ordered list of
change events. -/
def detectRemovedDevices (plugged : List Nat) :
    List USBDevice → List USBDevice × List (USBDevice × ChangeEvent)
  | [] => ([], [])
  | d :: rest =>
    let r := detectRemovedDevices plugged rest
    if d.devid ∈ plugged then (d :: r.1, r.2)
    else (r.1, (d, .removed) :: r.2)

/-- One notification delivered by the dispatcher: a per-device kind-specific
call of `OnDeviceChange`, or the batch-end call of `OnDeviceChangeEnd`. -/
inductive Notification where
  | deviceChange (event : ChangeEvent) (device : USBDevice)
  | deviceChangeEnd
  deriving DecidableEq, Repr

/-- The per-hook loop of `USBHost::DispatchHooks`. -/
def dispatchHooksLoop : List (USBDevice × ChangeEvent) → List Notification
  | [] => []
  | h :: rest => .deviceChange h.2 h.1 :: dispatchHooksLoop rest

/-- `USBHost::DispatchHooks`: one `OnDeviceChange` per hook in order, then
`OnDeviceChangeEnd` only if the hook set was non-empty. -/
def dispatchHooks (hooks : List (USBDevice × ChangeEvent)) : List Notification :=
  dispatchHooksLoop hooks ++ (if hooks.isEmpty then [] else [.deviceChangeEnd])

/-- Modelled from the spec: the result of one host-hardware enumeration by the
transport collaborator; enumeration can be unavailable. -/
inductive EnumResult where
  | fail
  | ok (devices : List USBDevice)

/-- The per-device body of `USBHost::AddNewDevices`: record the id as plugged,
try `AddDevice`, and add an `Inserted` hook for the stored device when it was
newly inserted (or unconditionally under `always_add_hooks`). -/
def addNewDevicesLoop (always_add_hooks : Bool) (reg : List USBDevice) :
    List USBDevice → List USBDevice × List Nat × List (USBDevice × ChangeEvent)
  | [] => (reg, [], [])
  | d :: rest =>
    let a := addDevice reg d
    let hook : List (USBDevice × ChangeEvent) :=
      if a.1 || always_add_hooks then
        match getDeviceById a.2 d.devid with
        | some dev => [(dev, .inserted)]
        | none => []
      else []
    let r := addNewDevicesLoop always_add_hooks a.2 rest
    (r.1, d.devid :: r.2.1, hook ++ r.2.2)

/-- `USBHost::AddNewDevices`: modelled from the spec for the enumeration
collaborator — when enumeration is unavailable the function reports failure
and nothing is changed; otherwise each enumerated (accepted) device is
processed in discovery order. -/
def addNewDevices (enum : EnumResult) (always_add_hooks : Bool)
    (reg : List USBDevice) :
    Option (List USBDevice × List Nat × List (USBDevice × ChangeEvent)) :=
  match enum with
  | .fail => none
  | .ok devices => some (addNewDevicesLoop always_add_hooks reg devices)

/-- `USBHost::UpdateDevices`: one scan pass.  Under determinism-wanted mode it
does nothing; otherwise it enumerates (failing the pass if enumeration
failed, without removal detection or hook dispatch), then detects removals
against the plugged set and dispatches all hooks.  Returns whether the pass
succeeded, the final registry and the dispatched notifications. -/
def updateDevices (wantsDeterminism : Bool) (enum : EnumResult)
    (always_add_hooks : Bool) (reg : List USBDevice) :
    Bool × List USBDevice × List Notification :=
  if wantsDeterminism then (true, reg, [])
  else
    match addNewDevices enum always_add_hooks reg with
    | none => (false, reg, [])
    | some r =>
      let rem := detectRemovedDevices r.2.1 r.1
      (true, rem.1, dispatchHooks (r.2.2 ++ rem.2))

/-- A concrete transport oracle used by the witness instantiations. -/
def fsTest : FSOracle :=
  ⟨fun _ _ => .ok 11, fun _ n => .ok n, fun _ off _ => .ok off⟩

/-- A concrete transport oracle whose open always fails with code 106. -/
def fsFailOpen : FSOracle :=
  ⟨fun _ _ => .error 106, fun _ n => .ok n, fun _ off _ => .ok off⟩

/-- A concrete guest memory reading zero everywhere. -/
def memZero : GuestMemory := ⟨fun _ => 0, fun _ => 0⟩

/-- A concrete opened table entry owned by uid 7. -/
def openedEntry7 : OpenedContent := ⟨true, 3, ⟨1, 0, 64⟩, 42, 7⟩

/-- A concrete title-metadata reader with one content at index 0. -/
def tmdTest : TMDReader :=
  ⟨42, fun i => if i = 0 then some ⟨1, 0, 64⟩ else none⟩

/-- A concrete device with id 1. -/
def devA : USBDevice := ⟨1, 10, 20⟩

/-- A concrete device with id 2. -/
def devB : USBDevice := ⟨2, 30, 40⟩

/-- A malformed seek request: correct vector counts (3 in, 0 out) but every
input vector sized 8 instead of 4. -/
def badSeekRequest : IOCtlVRequest :=
  ⟨[⟨256, 8⟩, ⟨264, 8⟩, ⟨272, 8⟩], []⟩

/-- A well-shaped active-title open request (1 input sized u32). -/
def activeTitleRequest : IOCtlVRequest := ⟨[⟨512, 4⟩], []⟩

/-- A title context that is not active. -/
def inactiveContext : TitleContext := ⟨false, tmdTest⟩

/-- A title context that is active, on the test metadata. -/
def activeContext : TitleContext := ⟨true, tmdTest⟩

/-- A well-shaped explicit-title open request (u64 / ticket view / u32). -/
def openRequest : IOCtlVRequest := ⟨[⟨512, 8⟩, ⟨520, 216⟩, ⟨736, 4⟩], []⟩

theorem openContentLoop_all_opened (fs : FSOracle) (title_id : Nat) (content : Content)
    (uid : Nat) :
    ∀ (l : List OpenedContent) (i : Nat), (∀ e ∈ l, e.m_opened = true) →
      openContentLoop fs title_id content uid i l = (.fsEfdexhausted, l, []) := by
  intro l
  induction l with
  | nil => intro i _; rfl
  | cons e rest ih =>
    intro i hall
    have he : e.m_opened = true := hall e (List.mem_cons_self e rest)
    have hrest := ih (i + 1) fun x hx => hall x (List.mem_cons_of_mem e hx)
    simp [openContentLoop, he, hrest]

theorem openContentLoop_first_empty_ok (fs : FSOracle) (title_id : Nat)
    (content : Content) (uid fd : Nat)
    (hfs : fs.openFile title_id content = .ok fd) :
    ∀ (l : List OpenedContent) (j i : Nat) (hj : j < l.length),
      (l.get ⟨j, hj⟩).m_opened = false →
      (∀ k (hk : k < j), (l.get ⟨k, hk.trans hj⟩).m_opened = true) →
      openContentLoop fs title_id content uid i l =
        (.ok (i + j), l.set j ⟨true, fd, content, title_id, uid⟩,
         [.openFile title_id content]) := by
  intro l
  induction l with
  | nil => intro j i hj; exact absurd hj (by simp)
  | cons e rest ih =>
    intro j i hj hempty hfirst
    cases j with
    | zero =>
      have he : e.m_opened = false := hempty
      simp [openContentLoop, he, hfs]
    | succ j' =>
      have he : e.m_opened = true := hfirst 0 (Nat.succ_pos j')
      have h1 : j' < rest.length := Nat.lt_of_succ_lt_succ hj
      have hempty' : (rest.get ⟨j', h1⟩).m_opened = false := hempty
      have hfirst' : ∀ k (hk : k < j'), (rest.get ⟨k, hk.trans h1⟩).m_opened = true :=
        fun k hk => hfirst (k + 1) (Nat.succ_lt_succ hk)
      have hrec := ih j' (i + 1) h1 hempty' hfirst'
      have harith : i + 1 + j' = i + (j' + 1) := by omega
      rw [harith] at hrec
      simp only [openContentLoop, he, if_true, hrec, List.set_cons_succ]

theorem openContentLoop_first_empty_error (fs : FSOracle) (title_id : Nat)
    (content : Content) (uid err : Nat)
    (hfs : fs.openFile title_id content = .error err) :
    ∀ (l : List OpenedContent) (j i : Nat) (hj : j < l.length),
      (l.get ⟨j, hj⟩).m_opened = false →
      (∀ k (hk : k < j), (l.get ⟨k, hk.trans hj⟩).m_opened = true) →
      openContentLoop fs title_id content uid i l =
        (.fsError err, l, [.openFile title_id content]) := by
  intro l
  induction l with
  | nil => intro j i hj; exact absurd hj (by simp)
  | cons e rest ih =>
    intro j i hj hempty hfirst
    cases j with
    | zero =>
      have he : e.m_opened = false := hempty
      simp [openContentLoop, he, hfs]
    | succ j' =>
      have he : e.m_opened = true := hfirst 0 (Nat.succ_pos j')
      have h1 : j' < rest.length := Nat.lt_of_succ_lt_succ hj
      have hempty' : (rest.get ⟨j', h1⟩).m_opened = false := hempty
      have hfirst' : ∀ k (hk : k < j'), (rest.get ⟨k, hk.trans h1⟩).m_opened = true :=
        fun k hk => hfirst (k + 1) (Nat.succ_lt_succ hk)
      have hrec := ih j' (i + 1) h1 hempty' hfirst'
      simp [openContentLoop, he, hrec]

/-- Claim C1: Read, Seek and Close on the content table perform the three
guard checks in the same fixed order — a handle at or beyond table capacity
returns ES_EINVAL; otherwise a uid mismatch returns ES_EACCES; otherwise a
non-opened entry returns IPC_EINVAL; only when all three pass is the
transport operation performed (the call log is empty in every guard-failure
case and holds exactly the one transport call in the pass case). -/
theorem contentTable_guard_order (fs : FSOracle) (table : List OpenedContent)
    (cfd size offset mode uid : Nat) :
    (table.length ≤ cfd →
      readContent fs table cfd size uid = (.esEinval, []) ∧
      seekContent fs table cfd offset mode uid = (.esEinval, []) ∧
      closeContent table cfd uid = (.esEinval, table, [])) ∧
    (cfd < table.length → (entryAt table cfd).m_uid ≠ uid →
      readContent fs table cfd size uid = (.esEacces, []) ∧
      seekContent fs table cfd offset mode uid = (.esEacces, []) ∧
      closeContent table cfd uid = (.esEacces, table, [])) ∧
    (cfd < table.length → (entryAt table cfd).m_uid = uid →
      (entryAt table cfd).m_opened = false →
      readContent fs table cfd size uid = (.ipcEinval, []) ∧
      seekContent fs table cfd offset mode uid = (.ipcEinval, []) ∧
      closeContent table cfd uid = (.ipcEinval, table, [])) ∧
    (cfd < table.length → (entryAt table cfd).m_uid = uid →
      (entryAt table cfd).m_opened = true →
      (readContent fs table cfd size uid).2 =
        [.readBytes (entryAt table cfd).m_fd size] ∧
      (seekContent fs table cfd offset mode uid).2 =
        [.seekFile (entryAt table cfd).m_fd offset mode] ∧
      (closeContent table cfd uid).2.2 = [.close (entryAt table cfd).m_fd]) := by
  refine ⟨fun h => ?_, fun h hne => ?_, fun h heq hop => ?_, fun h heq hop => ?_⟩
  · simp [readContent, seekContent, closeContent, h]
  · simp [readContent, seekContent, closeContent, Nat.not_le.mpr h, hne]
  · simp [readContent, seekContent, closeContent, Nat.not_le.mpr h, heq, hop]
  · refine ⟨?_, ?_, ?_⟩
    · cases hfs : fs.readBytes (entryAt table cfd).m_fd size with
      | ok n => simp [readContent, Nat.not_le.mpr h, heq, hop, hfs]
      | error e => simp [readContent, Nat.not_le.mpr h, heq, hop, hfs]
    · cases hfs : fs.seekFile (entryAt table cfd).m_fd offset mode with
      | ok n => simp [seekContent, Nat.not_le.mpr h, heq, hop, hfs]
      | error e => simp [seekContent, Nat.not_le.mpr h, heq, hop, hfs]
    · simp [closeContent, Nat.not_le.mpr h, heq, hop]

/-- Witness for C1: the four guard stages at concrete inputs. -/
theorem contentTable_guard_order_witness :
    readContent fsTest [openedEntry7] 3 8 7 = (.esEinval, []) ∧
    readContent fsTest [openedEntry7] 0 8 9 = (.esEacces, []) ∧
    readContent fsTest [emptyEntry] 0 8 0 = (.ipcEinval, []) ∧
    (readContent fsTest [openedEntry7] 0 8 7).2 = [.readBytes 3 8] :=
  ⟨((contentTable_guard_order fsTest [openedEntry7] 3 8 0 0 7).1 (by decide)).1,
   ((contentTable_guard_order fsTest [openedEntry7] 0 8 0 0 9).2.1 (by decide)
     (by decide)).1,
   ((contentTable_guard_order fsTest [emptyEntry] 0 8 0 0 0).2.2.1 (by decide)
     (by decide) (by decide)).1,
   ((contentTable_guard_order fsTest [openedEntry7] 0 8 0 0 7).2.2.2 (by decide)
     (by decide) (by decide)).1⟩

/-- Claim C2 counterexample: with a non-zero caller uid, Read, Seek and Close
on an in-range never-opened slot (default empty entry, whose recorded uid is
0) return ES_EACCES, not the InvalidState code the claim requires. -/
theorem unopened_slot_counterexample :
    readContent fsTest [emptyEntry] 0 8 1 = (.esEacces, []) ∧
    seekContent fsTest [emptyEntry] 0 0 0 1 = (.esEacces, []) ∧
    closeContent [emptyEntry] 0 1 = (.esEacces, [emptyEntry], []) ∧
    ESResult.esEacces ≠ ESResult.ipcEinval := by decide

/-- Claim C2 (amended): an out-of-range handle returns ES_EINVAL for every
caller; an in-range never-opened slot returns IPC_EINVAL when the caller uid
equals 0 (the default owner identity) and ES_EACCES otherwise; in all these
cases no transport call is made. -/
theorem contentTable_unopened_guard (fs : FSOracle) (table : List OpenedContent)
    (cfd size offset mode uid : Nat) :
    (table.length ≤ cfd →
      readContent fs table cfd size uid = (.esEinval, []) ∧
      seekContent fs table cfd offset mode uid = (.esEinval, []) ∧
      closeContent table cfd uid = (.esEinval, table, [])) ∧
    (cfd < table.length → entryAt table cfd = emptyEntry →
      readContent fs table cfd size uid =
        ((if uid = 0 then .ipcEinval else .esEacces), []) ∧
      seekContent fs table cfd offset mode uid =
        ((if uid = 0 then .ipcEinval else .esEacces), []) ∧
      closeContent table cfd uid =
        ((if uid = 0 then .ipcEinval else .esEacces), table, [])) := by
  refine ⟨fun h => ?_, fun h hempty => ?_⟩
  · simp [readContent, seekContent, closeContent, h]
  · by_cases hu : uid = 0
    · simp [readContent, seekContent, closeContent, Nat.not_le.mpr h, hempty,
        emptyEntry, hu]
    · simp [readContent, seekContent, closeContent, Nat.not_le.mpr h, hempty,
        emptyEntry, hu, Ne.symm hu]

/-- Witness for C2 (amended) at concrete inputs. -/
theorem contentTable_unopened_guard_witness :
    readContent fsTest [emptyEntry] 2 8 5 = (.esEinval, []) ∧
    readContent fsTest [emptyEntry] 0 8 5 = (.esEacces, []) ∧
    readContent fsTest [emptyEntry] 0 8 0 = (.ipcEinval, []) :=
  ⟨((contentTable_unopened_guard fsTest [emptyEntry] 2 8 0 0 5).1 (by decide)).1,
   ((contentTable_unopened_guard fsTest [emptyEntry] 0 8 0 0 5).2 (by decide)
     (by decide)).1,
   ((contentTable_unopened_guard fsTest [emptyEntry] 0 8 0 0 0).2 (by decide)
     (by decide)).1⟩

/-- Claim C3: with a valid content index, Open on a table whose entries are
all opened returns FS_EFDEXHAUSTED, leaves the table unchanged and makes no
transport call; and when the table has an empty slot, a successful Open
populates exactly the first empty slot (all other entries unchanged, captured
by `List.set`) and returns that slot's index as the handle. -/
theorem openContent_exhaustion_and_first_slot (fs : FSOracle) (tmd : TMDReader)
    (table : List OpenedContent) (content_index uid fd : Nat) (content : Content)
    (hcontent : tmd.getContent content_index = some content) :
    ((∀ e ∈ table, e.m_opened = true) →
      openContent fs tmd table content_index uid = (.fsEfdexhausted, table, [])) ∧
    (∀ j (hj : j < table.length),
      (table.get ⟨j, hj⟩).m_opened = false →
      (∀ k (hk : k < j), (table.get ⟨k, hk.trans hj⟩).m_opened = true) →
      fs.openFile tmd.titleId content = .ok fd →
      openContent fs tmd table content_index uid =
        (.ok j, table.set j ⟨true, fd, content, tmd.titleId, uid⟩,
         [.openFile tmd.titleId content])) := by
  constructor
  · intro hall
    have := openContentLoop_all_opened fs tmd.titleId content uid table 0 hall
    simp [openContent, hcontent, this]
  · intro j hj hempty hfirst hfs
    have := openContentLoop_first_empty_ok fs tmd.titleId content uid fd hfs
      table j 0 hj hempty hfirst
    simpa [openContent, hcontent] using this

/-- Witness for C3: a full table of one opened entry is exhausted; a table
with an opened entry followed by an empty one populates slot 1. -/
theorem openContent_exhaustion_and_first_slot_witness :
    openContent fsTest tmdTest [openedEntry7] 0 7 =
      (.fsEfdexhausted, [openedEntry7], []) ∧
    openContent fsTest tmdTest [openedEntry7, emptyEntry] 0 9 =
      (.ok 1, [openedEntry7, ⟨true, 11, ⟨1, 0, 64⟩, 42, 9⟩],
       [.openFile 42 ⟨1, 0, 64⟩]) :=
  ⟨(openContent_exhaustion_and_first_slot fsTest tmdTest [openedEntry7] 0 7 11
      ⟨1, 0, 64⟩ (by decide)).1 (by decide),
   (openContent_exhaustion_and_first_slot fsTest tmdTest [openedEntry7, emptyEntry]
      0 9 11 ⟨1, 0, 64⟩ (by decide)).2 1 (by decide) (by decide)
      (fun k hk => by
        cases k with
        | zero => rfl
        | succ k => exact absurd hk (by omega)) rfl⟩

/-- Claim C10: when the backing filesystem open fails, OpenContent returns the
translated transport error and leaves the whole table unchanged — the first
empty slot stays fully empty. -/
theorem openContent_transport_failure_atomic (fs : FSOracle) (tmd : TMDReader)
    (table : List OpenedContent) (content_index uid err j : Nat) (content : Content)
    (hcontent : tmd.getContent content_index = some content)
    (hj : j < table.length)
    (hempty : (table.get ⟨j, hj⟩).m_opened = false)
    (hfirst : ∀ k (hk : k < j), (table.get ⟨k, hk.trans hj⟩).m_opened = true)
    (hfs : fs.openFile tmd.titleId content = .error err) :
    openContent fs tmd table content_index uid =
      (.fsError err, table, [.openFile tmd.titleId content]) := by
  have := openContentLoop_first_empty_error fs tmd.titleId content uid err hfs
    table j 0 hj hempty hfirst
  simpa [openContent, hcontent] using this

/-- Witness for C10: an open failing with transport code 106 on a one-slot
empty table returns the translated error and the untouched table. -/
theorem openContent_transport_failure_atomic_witness :
    openContent fsFailOpen tmdTest [emptyEntry] 0 7 =
      (.fsError 106, [emptyEntry], [.openFile 42 ⟨1, 0, 64⟩]) :=
  openContent_transport_failure_atomic fsFailOpen tmdTest [emptyEntry] 0 7 106 0
    ⟨1, 0, 64⟩ (by decide) (by decide) (by decide)
    (fun k hk => absurd hk (Nat.not_lt_zero k)) rfl

/-- Claim C4 counterexample: a Seek request with the correct vector counts
(3 inputs, 0 outputs) but every input vector sized 8 instead of 4 is not
rejected with ES_EINVAL — it proceeds to the guarded seek, here reaching the
ownership check and returning ES_EACCES. -/
theorem seek_vector_size_counterexample :
    badSeekRequest.hasNumberOfValidVectors 3 0 = true ∧
    (badSeekRequest.in_vectors.getD 0 default).size ≠ 4 ∧
    seekContentIoctlv fsTest memZero [emptyEntry] 5 badSeekRequest =
      (.esEacces, []) ∧
    ESResult.esEacces ≠ ESResult.esEinval := by decide

/-- Claim C4 (amended): the Seek IOCtlV handler validates only the vector
counts — a request without exactly 3 inputs and 0 outputs returns ES_EINVAL,
but with the correct counts the per-vector byte sizes are not checked and the
handler decodes the three u32 arguments and performs the guarded seek. -/
theorem seekContentIoctlv_checks_count_only (fs : FSOracle) (mem : GuestMemory)
    (table : List OpenedContent) (uid : Nat) (request : IOCtlVRequest) :
    (request.hasNumberOfValidVectors 3 0 = false →
      seekContentIoctlv fs mem table uid request = (.esEinval, [])) ∧
    (request.hasNumberOfValidVectors 3 0 = true →
      seekContentIoctlv fs mem table uid request =
        seekContent fs table
          (mem.read_u32 (request.in_vectors.getD 0 default).address)
          (mem.read_u32 (request.in_vectors.getD 1 default).address)
          (mem.read_u32 (request.in_vectors.getD 2 default).address) uid) := by
  refine ⟨fun h => ?_, fun h => ?_⟩ <;> simp [seekContentIoctlv, h]

/-- Witness for C4 (amended): the malformed-size request is decoded and
seeks; a request with the wrong count is rejected. -/
theorem seekContentIoctlv_checks_count_only_witness :
    seekContentIoctlv fsTest memZero [emptyEntry] 5 badSeekRequest =
      seekContent fsTest [emptyEntry] 0 0 0 5 ∧
    seekContentIoctlv fsTest memZero [emptyEntry] 5 ⟨[], []⟩ = (.esEinval, []) :=
  ⟨(seekContentIoctlv_checks_count_only fsTest memZero [emptyEntry] 5
      badSeekRequest).2 (by decide),
   (seekContentIoctlv_checks_count_only fsTest memZero [emptyEntry] 5
      ⟨[], []⟩).1 (by decide)⟩

/-- Claim C5 counterexample: a well-shaped active-title Open issued with no
active title context returns ES_EINVAL (InvalidArgument), not the NotFound
code (FS_ENOENT). -/
theorem no_active_title_counterexample :
    activeTitleRequest.hasNumberOfValidVectors 1 0 = true ∧
    (activeTitleRequest.in_vectors.getD 0 default).size = 4 ∧
    openActiveTitleContent fsTest memZero (fun _ => 0) inactiveContext
      [emptyEntry] 0 activeTitleRequest = (.esEinval, [emptyEntry], []) ∧
    ESResult.esEinval ≠ ESResult.fsEnoent := by decide

/-- Claim C5 (amended): a well-shaped active-title Open with no active title
context returns ES_EINVAL (InvalidArgument), with the table untouched and no
transport call; the NotFound code (FS_ENOENT) is what the explicit-title Open
returns when no installed metadata is found. -/
theorem activeTitle_open_error_codes (fs : FSOracle) (mem : GuestMemory)
    (uidForTitle : Nat → Nat) (tc : TitleContext) (table : List OpenedContent)
    (caller_uid uid2 : Nat) (request request2 : IOCtlVRequest)
    (findTMD : Nat → Option TMDReader) :
    (request.hasNumberOfValidVectors 1 0 = true →
      (request.in_vectors.getD 0 default).size = 4 →
      tc.active = false →
      openActiveTitleContent fs mem uidForTitle tc table caller_uid request =
        (.esEinval, table, [])) ∧
    (request2.hasNumberOfValidVectors 3 0 = true →
      (request2.in_vectors.getD 0 default).size = 8 →
      (request2.in_vectors.getD 1 default).size = ticketViewSize →
      (request2.in_vectors.getD 2 default).size = 4 →
      findTMD (mem.read_u64 (request2.in_vectors.getD 0 default).address) = none →
      openContentIoctlv fs mem findTMD table uid2 request2 =
        (.fsEnoent, table, [])) := by
  refine ⟨fun h1 h2 h3 => ?_, fun h1 h2 h3 h4 h5 => ?_⟩
  · simp only [List.getD_eq_getElem?_getD] at h2
    simp [openActiveTitleContent, h1, h2, h3]
  · simp only [List.getD_eq_getElem?_getD, ticketViewSize] at h2 h3 h4 h5
    simp [openContentIoctlv, h1, h2, h3, h4, h5, ticketViewSize]

/-- Witness for C5 (amended) at concrete inputs. -/
theorem activeTitle_open_error_codes_witness :
    openActiveTitleContent fsTest memZero (fun _ => 0) inactiveContext
      [emptyEntry] 0 activeTitleRequest = (.esEinval, [emptyEntry], []) ∧
    openContentIoctlv fsTest memZero (fun _ => none) [emptyEntry] 0 openRequest =
      (.fsEnoent, [emptyEntry], []) :=
  ⟨(activeTitle_open_error_codes fsTest memZero (fun _ => 0) inactiveContext
      [emptyEntry] 0 0 activeTitleRequest openRequest (fun _ => none)).1
      (by decide) (by decide) (by decide),
   (activeTitle_open_error_codes fsTest memZero (fun _ => 0) inactiveContext
      [emptyEntry] 0 0 activeTitleRequest openRequest (fun _ => none)).2
      (by decide) (by decide) (by decide) (by decide) rfl⟩

/-- Claim C6: a well-shaped active-title Open with an active context, from a
non-zero caller uid that differs from the uid the UID-assignment lookup gives
the active title, returns ES_EACCES with the table untouched and without any
transport call (the delegated table Open is never reached). -/
theorem activeTitle_uid_mismatch_denied (fs : FSOracle) (mem : GuestMemory)
    (uidForTitle : Nat → Nat) (tc : TitleContext) (table : List OpenedContent)
    (caller_uid : Nat) (request : IOCtlVRequest)
    (hshape : request.hasNumberOfValidVectors 1 0 = true)
    (hsize : (request.in_vectors.getD 0 default).size = 4)
    (hactive : tc.active = true)
    (hnonzero : caller_uid ≠ 0)
    (hmismatch : caller_uid ≠ uidForTitle tc.tmd.titleId) :
    openActiveTitleContent fs mem uidForTitle tc table caller_uid request =
      (.esEacces, table, []) := by
  simp only [List.getD_eq_getElem?_getD] at hsize
  simp [openActiveTitleContent, hshape, hsize, hactive, hnonzero, hmismatch]

/-- Witness for C6: caller uid 5 against assigned uid 9. -/
theorem activeTitle_uid_mismatch_denied_witness :
    openActiveTitleContent fsTest memZero (fun _ => 9) activeContext
      [emptyEntry] 5 activeTitleRequest = (.esEacces, [emptyEntry], []) :=
  activeTitle_uid_mismatch_denied fsTest memZero (fun _ => 9) activeContext
    [emptyEntry] 5 activeTitleRequest (by decide) (by decide) (by decide)
    (by decide) (by decide)

theorem registryFind_eq_none_iff (id : Nat) :
    ∀ l : List USBDevice, registryFind id l = none ↔ ∀ e ∈ l, e.devid ≠ id := by
  intro l
  induction l with
  | nil => simp [registryFind]
  | cons d rest ih =>
    by_cases hd : d.devid = id
    · simp [registryFind, hd]
    · simp [registryFind, hd, ih]

theorem registryInsert_perm (d : USBDevice) :
    ∀ l : List USBDevice, (registryInsert d l).Perm (d :: l) := by
  intro l
  induction l with
  | nil => exact List.Perm.refl _
  | cons e rest ih =>
    by_cases hlt : d.devid < e.devid
    · simp [registryInsert, hlt]
    · simp only [registryInsert, hlt, if_false]
      exact (List.Perm.cons e ih).trans (List.Perm.swap d e rest)

theorem registryFind_insert_self (d : USBDevice) :
    ∀ l : List USBDevice, (∀ e ∈ l, e.devid ≠ d.devid) →
      registryFind d.devid (registryInsert d l) = some d := by
  intro l
  induction l with
  | nil => intro _; simp [registryInsert, registryFind]
  | cons e rest ih =>
    intro h
    have he : e.devid ≠ d.devid := h e (List.mem_cons_self e rest)
    have hrest := ih fun x hx => h x (List.mem_cons_of_mem e hx)
    by_cases hlt : d.devid < e.devid
    · simp [registryInsert, hlt, registryFind]
    · simp [registryInsert, hlt, registryFind, he, hrest]

theorem detectRemoved_all_plugged (plugged : List Nat) :
    ∀ l : List USBDevice, (∀ e ∈ l, e.devid ∈ plugged) →
      detectRemovedDevices plugged l = (l, []) := by
  intro l
  induction l with
  | nil => intro _; rfl
  | cons d rest ih =>
    intro h
    have hd : d.devid ∈ plugged := h d (List.mem_cons_self d rest)
    have hrest := ih fun x hx => h x (List.mem_cons_of_mem d hx)
    simp [detectRemovedDevices, hd, hrest]

theorem detectRemoved_none_plugged :
    ∀ l : List USBDevice,
      detectRemovedDevices [] l = ([], l.map fun e => (e, ChangeEvent.removed)) := by
  intro l
  induction l with
  | nil => rfl
  | cons d rest ih => simp [detectRemovedDevices, ih]

theorem count_removed_map (d : USBDevice) :
    ∀ l : List USBDevice,
      ((l.map fun e => (e, ChangeEvent.removed)).count (d, ChangeEvent.removed)) =
        l.count d := by
  intro l
  induction l with
  | nil => rfl
  | cons e rest ih =>
    by_cases he : e = d
    · subst he
      simp [List.count_cons, ih]
    · simp [List.count_cons, ih, he, Prod.mk.injEq]

/-- Claim C7 counterexample: starting from a registry already holding devB,
AddDevice(devA) succeeds, yet an immediate DetectRemoved with a plugged set
containing devA's id produces one change event (devB is evicted), not zero,
refuting the claim's universally quantified zero-events clause. -/
theorem registry_roundtrip_counterexample :
    (addDevice [devB] devA).1 = true ∧
    getDeviceById (addDevice [devB] devA).2 devA.devid = some devA ∧
    detectRemovedDevices [devA.devid] (addDevice [devB] devA).2 =
      ([devA], [(devB, .removed)]) ∧
    [(devB, ChangeEvent.removed)] ≠ ([] : List (USBDevice × ChangeEvent)) := by
  decide

/-- Claim C7 (amended): AddDevice inserts and returns true when the id is
absent, returns false leaving the registry unchanged when present; after a
successful AddDevice(d), DetectRemoved with a plugged set containing the id of
every present device (in particular d's) produces zero events and d remains
present, while DetectRemoved with the empty plugged set produces exactly one
Removed event for d (among one per present device) and d is absent
afterwards. -/
theorem addDevice_detectRemoved_roundtrip (reg : List USBDevice) (d : USBDevice) :
    (∀ e, registryFind d.devid reg = some e → addDevice reg d = (false, reg)) ∧
    (registryFind d.devid reg = none →
      (addDevice reg d).1 = true ∧
      getDeviceById (addDevice reg d).2 d.devid = some d ∧
      (∀ plugged : List Nat, (∀ e ∈ (addDevice reg d).2, e.devid ∈ plugged) →
        detectRemovedDevices plugged (addDevice reg d).2 =
          ((addDevice reg d).2, [])) ∧
      (detectRemovedDevices [] (addDevice reg d).2).2.count
        (d, ChangeEvent.removed) = 1 ∧
      getDeviceById (detectRemovedDevices [] (addDevice reg d).2).1 d.devid =
        none) := by
  constructor
  · intro e he
    simp [addDevice, he]
  · intro hnone
    have hne : ∀ e ∈ reg, e.devid ≠ d.devid :=
      (registryFind_eq_none_iff d.devid reg).mp hnone
    have hreg2 : (addDevice reg d).2 = registryInsert d reg := by
      simp [addDevice, hnone]
    refine ⟨by simp [addDevice, hnone], ?_, ?_, ?_, ?_⟩
    · rw [hreg2]
      exact registryFind_insert_self d reg hne
    · intro plugged hplug
      rw [hreg2] at hplug ⊢
      exact detectRemoved_all_plugged plugged _ hplug
    · rw [hreg2, detectRemoved_none_plugged]
      have h1 := count_removed_map d (registryInsert d reg)
      have h2 : (registryInsert d reg).count d = reg.count d + 1 := by
        have hp := (registryInsert_perm d reg).count_eq d
        simpa [List.count_cons_self] using hp
      have h3 : reg.count d = 0 :=
        List.count_eq_zero.mpr fun hmem => hne d hmem rfl
      simp [h1, h2, h3]
    · rw [hreg2, detectRemoved_none_plugged]
      rfl

/-- Witness for C7 (amended): duplicate rejection, round trip with a full
plugged set, and the single removal event, at concrete devices. -/
theorem addDevice_detectRemoved_roundtrip_witness :
    addDevice [devA] devA = (false, [devA]) ∧
    (addDevice [devB] devA).1 = true ∧
    detectRemovedDevices [1, 2] (addDevice [devB] devA).2 =
      ((addDevice [devB] devA).2, []) ∧
    (detectRemovedDevices [] (addDevice [devB] devA).2).2.count
      (devA, ChangeEvent.removed) = 1 :=
  ⟨(addDevice_detectRemoved_roundtrip [devA] devA).1 devA (by decide),
   ((addDevice_detectRemoved_roundtrip [devB] devA).2 (by decide)).1,
   ((addDevice_detectRemoved_roundtrip [devB] devA).2 (by decide)).2.2.1 [1, 2]
     (by decide),
   ((addDevice_detectRemoved_roundtrip [devB] devA).2 (by decide)).2.2.2.1⟩

/-- Claim C8: a scan pass whose enumeration step fails returns failure with
the registry unchanged and no notification dispatched — removal detection and
hook dispatch run only on the enumeration-success path. -/
theorem updateDevices_enumeration_failure (always_add_hooks : Bool)
    (reg devices : List USBDevice) :
    updateDevices false .fail always_add_hooks reg = (false, reg, []) ∧
    updateDevices false (.ok devices) always_add_hooks reg =
      (true,
       (detectRemovedDevices (addNewDevicesLoop always_add_hooks reg devices).2.1
         (addNewDevicesLoop always_add_hooks reg devices).1).1,
       dispatchHooks ((addNewDevicesLoop always_add_hooks reg devices).2.2 ++
         (detectRemovedDevices (addNewDevicesLoop always_add_hooks reg devices).2.1
           (addNewDevicesLoop always_add_hooks reg devices).1).2)) := by
  constructor
  · simp [updateDevices, addNewDevices]
  · simp [updateDevices, addNewDevices]

theorem dispatchHooksLoop_eq_map :
    ∀ hooks : List (USBDevice × ChangeEvent),
      dispatchHooksLoop hooks =
        hooks.map fun h => Notification.deviceChange h.2 h.1 := by
  intro hooks
  induction hooks with
  | nil => rfl
  | cons h rest ih => simp [dispatchHooksLoop, ih]

theorem count_end_map :
    ∀ hooks : List (USBDevice × ChangeEvent),
      ((hooks.map fun h => Notification.deviceChange h.2 h.1).count
        Notification.deviceChangeEnd) = 0 := by
  intro hooks
  induction hooks with
  | nil => rfl
  | cons h rest ih => simp [List.count_cons, ih]

/-- Claim C9: the dispatcher delivers one kind-specific per-device
notification per change event in set order, followed — only when the set is
non-empty — by exactly one batch-end notification, after all per-device
notifications. -/
theorem dispatchHooks_order_and_batch_end (hooks : List (USBDevice × ChangeEvent)) :
    dispatchHooks hooks =
      (hooks.map fun h => Notification.deviceChange h.2 h.1) ++
        (if hooks = [] then [] else [Notification.deviceChangeEnd]) ∧
    (dispatchHooks hooks).count Notification.deviceChangeEnd =
      (if hooks = [] then 0 else 1) := by
  have h1 : dispatchHooks hooks =
      (hooks.map fun h => Notification.deviceChange h.2 h.1) ++
        (if hooks = [] then [] else [Notification.deviceChangeEnd]) := by
    cases hooks with
    | nil => rfl
    | cons h rest => simp [dispatchHooks, dispatchHooksLoop_eq_map]
  refine ⟨h1, ?_⟩
  rw [h1, List.count_append, count_end_map]
  cases hooks with
  | nil => simp
  | cons h rest => simp

end Dolphin
